import Mathlib

/-!
# Verification of the employee-attrition preprocessing pipeline

A shallow embedding of `src/model.py` (functions `preprocess_input` and
`main_app`) of the Employee-analytics repository, together with proofs
settling the specification claims about binning, one-hot encoding,
column alignment, scaling and the prediction/report glue.

A pandas `DataFrame` is modelled as an association list of named columns.
A column is either numeric (`num`), a plain string/object column (`str`),
or a pandas `Categorical` (`cat`) carrying its fixed category vocabulary,
whose cells may be missing (`none` models `NaN`, as produced by `pd.cut`
on an out-of-range value).
-/

namespace EmployeeAnalytics

/-- A pandas column: numeric, object (string), or categorical dtype with a
fixed category list and possibly-missing (`NaN`) cells. -/
inductive ColVals where
  | num (vals : List Int)
  | str (vals : List String)
  | cat (cats : List String) (vals : List (Option String))
  deriving DecidableEq, Repr

/-- A data frame: named columns in order. -/
abbrev Frame := List (String × ColVals)

/-- Number of rows stored in a column. -/
def ColVals.nRows : ColVals → Nat
  | .num vs => vs.length
  | .str vs => vs.length
  | .cat _ vs => vs.length

/-- `df[c]`: the first column named `c`, if any. -/
def Frame.lookup : Frame → String → Option ColVals
  | [], _ => none
  | (c', v) :: rest, c => if c' = c then some v else Frame.lookup rest c

/-- `df[c]` when the column must be numeric (e.g. the argument of `pd.cut`). -/
def Frame.getNum (df : Frame) (c : String) : Option (List Int) :=
  match df.lookup c with
  | some (.num vs) => some vs
  | _ => none

/-- `df[c] = v`: pandas column assignment — replaces the column in place if
it exists, otherwise appends it at the end. -/
def Frame.setCol : Frame → String → ColVals → Frame
  | [], c, v => [(c, v)]
  | (c', v') :: rest, c, v =>
      if c' = c then (c, v) :: rest else (c', v') :: Frame.setCol rest c v

/-- `df[cols]`: column selection in the given order; fails (pandas
`KeyError`) when a requested column is absent. -/
def Frame.select (df : Frame) : List String → Option Frame
  | [] => some []
  | c :: cs =>
      match df.lookup c, df.select cs with
      | some v, some rest => some ((c, v) :: rest)
      | _, _ => none

/-- `pd.cut(v, bins, labels, right=False)` on one cell: the label of the
first half-open interval `[bᵢ, bᵢ₊₁)` containing `v`; `none` (`NaN`) when
`v` falls outside every interval. -/
def cutVal : List Int → List String → Int → Option String
  | b₀ :: b₁ :: bs, l :: ls, v =>
      if b₀ ≤ v ∧ v < b₁ then some l else cutVal (b₁ :: bs) ls v
  | _, _, _ => none

/-- `pd.cut` on a whole column: the result is a pandas `Categorical` whose
category vocabulary is the full label list, whatever values occur. -/
def cutCol (bins : List Int) (labels : List String) (vals : List Int) : ColVals :=
  .cat labels (vals.map (cutVal bins labels))

/-- `age_bins` of `preprocess_input`. -/
def age_bins : List Int := [21, 29, 37, 46, 54, 62]

/-- `age_labels` of `preprocess_input`. -/
def age_labels : List String := ["21-28", "29-36", "37-45", "46-53", "54-61"]

/-- `tenure_bins` of `preprocess_input`. -/
def tenure_bins : List Int := [0, 6, 12, 18, 24, 30]

/-- `tenure_labels` of `preprocess_input`. -/
def tenure_labels : List String := ["0-5", "6-11", "12-17", "18-23", "24-29"]

/-- `salary_bins` of `preprocess_input`. -/
def salary_bins : List Int := [40000, 60000, 80000, 100000, 130000]

/-- `salary_labels` of `preprocess_input`. -/
def salary_labels : List String := ["low", "medium", "high", "very_high"]

/-- The eight feature columns selected for encoding. -/
def features : List String :=
  ["no_of_projects", "salary_bin", "age_group", "tenure_group",
   "dept_name", "title", "sex", "Last_performance_rating"]

/-- Lexicographic comparison of character lists by code point, the order
`np.unique` uses on ASCII strings. -/
def charListLe : List Char → List Char → Bool
  | [], _ => true
  | _ :: _, [] => false
  | a :: as, b :: bs =>
      if a.toNat < b.toNat then true
      else if b.toNat < a.toNat then false
      else charListLe as bs

/-- Lexicographic string comparison by code point. -/
def strLe (a b : String) : Bool := charListLe a.data b.data

/-- Insert a string into an already sorted list (ascending). -/
def insertSorted (x : String) : List String → List String
  | [] => [x]
  | y :: ys => if strLe x y then x :: y :: ys else y :: insertSorted x ys

/-- Insertion sort on strings, the order `np.unique` / pandas use to fix
the category order of an object column. -/
def sortStrings : List String → List String
  | [] => []
  | x :: xs => insertSorted x (sortStrings xs)

/-- Indicator column for category `g` over object-column values. -/
def indicatorStr (g : String) (vals : List String) : List Int :=
  vals.map (fun v => if v = g then 1 else 0)

/-- Indicator column for category `g` over categorical cells; a `NaN`
cell (`none`) contributes `0` to every indicator. -/
def indicatorCat (g : String) (vals : List (Option String)) : List Int :=
  vals.map (fun v => if v = some g then 1 else 0)

/-- The dummy columns `pd.get_dummies(..., drop_first=True)` generates for
one non-numeric column: for an object column the categories are the sorted
distinct observed values; for a categorical column they are the dtype's
fixed category list.  The first category is dropped. -/
def dummyColsFor (name : String) : ColVals → List (String × ColVals)
  | .num _ => []
  | .str vs =>
      ((sortStrings vs.dedup).drop 1).map
        (fun g => (name ++ "_" ++ g, ColVals.num (indicatorStr g vs)))
  | .cat cats vs =>
      (cats.drop 1).map
        (fun g => (name ++ "_" ++ g, ColVals.num (indicatorCat g vs)))

/-- Whether a column is numeric (passed through by `get_dummies`). -/
def ColVals.isNum : ColVals → Bool
  | .num _ => true
  | _ => false

/-- `pd.get_dummies(df, drop_first=True)`: numeric columns pass through
first, then the dummy columns of each non-numeric column in order. -/
def get_dummies (df : Frame) : Frame :=
  df.filter (fun p => p.2.isNum) ++
    (df.filter (fun p => ¬ p.2.isNum)).flatMap (fun p => dummyColsFor p.1 p.2)

/-- The alignment prelude of `preprocess_input`:
`for col in set(model_columns) - set(encoded_df.columns): encoded_df[col] = 0`.
Each missing model column is appended, filled with `0` broadcast over the
frame's `n` rows. -/
def addMissing (df : Frame) (model_columns : List String) (n : Nat) : Frame :=
  df ++ ((model_columns.dedup.filter (fun c => df.lookup c = none)).map
    (fun c => (c, ColVals.num (List.replicate n 0))))

/-- The full alignment step: fill the missing model columns with zeros then
take `encoded_df[model_columns]`. -/
def alignColumns (df : Frame) (model_columns : List String) (n : Nat) : Option Frame :=
  (addMissing df model_columns n).select model_columns

/-- Numeric cell `i` of a column; fails on a non-numeric column or a
too-short one (as `numpy` conversion inside `scaler.transform` would). -/
def cellAt (cv : ColVals) (i : Nat) : Option Int :=
  match cv with
  | .num vs => vs.get? i
  | _ => none

/-- Row `i` of a frame, as the list of numeric cells across its columns. -/
def frameRow : Frame → Nat → Option (List Int)
  | [], _ => some []
  | p :: rest, i =>
      match cellAt p.2 i, frameRow rest i with
      | some x, some xs => some (x :: xs)
      | _, _ => none

/-- Rows `i, i+1, …, i+k-1` of a frame. -/
def frameRowsFrom (df : Frame) : Nat → Nat → Option (List (List Int))
  | _, 0 => some []
  | i, k + 1 =>
      match frameRow df i, frameRowsFrom df (i + 1) k with
      | some r, some rs => some (r :: rs)
      | _, _ => none

/-- The numeric matrix underlying a frame with `n` rows. -/
def frameMatrix (df : Frame) (n : Nat) : Option (List (List Int)) :=
  frameRowsFrom df 0 n

/-- The fitted `StandardScaler` artifact (`scaler.pkl`), opaque to the
repository: per-column mean and scale learned at training time. -/
structure Scaler where
  mean : List ℚ
  scale : List ℚ
  deriving DecidableEq, Repr

/-- `StandardScaler.transform` on one row: `(x - mean) / scale` per
column; sklearn rejects a row whose feature count differs from the
fitted width. -/
def Scaler.transformRow (s : Scaler) (row : List Int) : Option (List ℚ) :=
  if row.length = s.mean.length ∧ row.length = s.scale.length then
    some ((row.zip (s.mean.zip s.scale)).map
      (fun p => ((p.1 : ℚ) - p.2.1) / p.2.2))
  else none

/-- `StandardScaler.transform` on a matrix: row-wise. -/
def Scaler.transform (s : Scaler) : List (List Int) → Option (List (List ℚ))
  | [] => some []
  | r :: rs =>
      match s.transformRow r, s.transform rs with
      | some r', some rs' => some (r' :: rs')
      | _, _ => none

/-- `preprocess_input(input_df, model_columns, scaler)` of `src/model.py`.

The Python function mutates its argument: the three `pd.cut` assignments
add (or overwrite) the columns `age_group`, `tenure_group` and
`salary_bin` on the caller's frame.  The embedding therefore returns the
frame as the caller observes it after the call, together with the scaled
matrix (`none` models an uncaught Python exception: a missing or
non-numeric column, or a scaler width mismatch). -/
def preprocess_input (input_df : Frame) (model_columns : List String) (scaler : Scaler) :
    Frame × Option (List (List ℚ)) :=
  match input_df.getNum "age", input_df.getNum "tenure", input_df.getNum "salary" with
  | some ages, some tenures, some salaries =>
      let df1 := input_df.setCol "age_group" (cutCol age_bins age_labels ages)
      let df2 := df1.setCol "tenure_group" (cutCol tenure_bins tenure_labels tenures)
      let df3 := df2.setCol "salary_bin" (cutCol salary_bins salary_labels salaries)
      let n := ages.length
      let result : Option (List (List ℚ)) := do
        let processed_df ← df3.select features
        let encoded_df := get_dummies processed_df
        let aligned ← alignColumns encoded_df model_columns n
        let mat ← frameMatrix aligned n
        scaler.transform mat
      (df3, result)
  | _, _, _ => (input_df, none)

/-- The pre-trained classifier artifact (`logistic_regression_model.pkl`),
opaque to the repository: a per-row label in `{0, 1}` (`predict`) and a
per-row class-1 probability (`predict_proba(...)[·, 1]`). -/
structure Classifier where
  predict : List ℚ → Int
  proba1 : List ℚ → ℚ

/-- `required_cols` of `main_app`'s CSV branch. -/
def required_cols : List String :=
  ["age", "tenure", "salary", "dept_name", "title", "sex",
   "Last_performance_rating", "no_of_projects"]

/-- Outcome of the CSV-upload branch of `main_app`. -/
inductive UploadOutcome where
  | missingCols
  | pipelineError
  | success (predictions : List String) (probabilities : List ℚ)
      (total stay leave : Nat)
  deriving Repr

/-- The CSV-upload branch of `main_app` (lines 91–131): check the required
columns, preprocess, predict, label each row `Leave`/`Stay`, attach the
labels to the frame and count them.  The first component is the caller's
frame after the call (`preprocess_input` and the `df['Prediction']`
assignment both mutate it); `Probability` holds rationals and is reported
in the outcome rather than stored in the integer/string frame. -/
def main_app_upload (df : Frame) (model_columns : List String) (scaler : Scaler)
    (model : Classifier) : Frame × UploadOutcome :=
  if required_cols.all (fun c => (df.lookup c).isSome) then
    match preprocess_input df model_columns scaler with
    | (df', some processed_data) =>
        let predictions := processed_data.map model.predict
        let probabilities := processed_data.map model.proba1
        let predLabels := predictions.map (fun p => if p = 1 then "Leave" else "Stay")
        let df'' := df'.setCol "Prediction" (ColVals.str predLabels)
        let total := predLabels.length
        let stay := predLabels.count "Stay"
        let leave := predLabels.count "Leave"
        (df'', .success predLabels probabilities total stay leave)
    | (df', none) => (df', .pipelineError)
  else (df, .missingCols)

/-- The single-record frame built from the manual form's fields
(lines 147–157). -/
def manual_input_df (age tenure salary no_of_projects : Int)
    (dept_name title sex rating : String) : Frame :=
  [("age", .num [age]), ("tenure", .num [tenure]), ("salary", .num [salary]),
   ("no_of_projects", .num [no_of_projects]), ("dept_name", .str [dept_name]),
   ("title", .str [title]), ("sex", .str [sex]),
   ("Last_performance_rating", .str [rating])]

/-- What the manual branch displays: whether the "will leave" message was
shown, and the probability printed in it. -/
structure ManualResult where
  willLeave : Bool
  displayedProb : ℚ
  deriving DecidableEq, Repr

/-- The manual-input branch of `main_app` (lines 146–167): build the
one-row frame, preprocess, predict on row 0, and display either
`will leave (Probability: probability)` or
`will stay (Probability: 1 - probability)`. -/
def main_app_manual (age tenure salary no_of_projects : Int)
    (dept_name title sex rating : String) (model_columns : List String)
    (scaler : Scaler) (model : Classifier) : Option ManualResult :=
  let input_df := manual_input_df age tenure salary no_of_projects dept_name title sex rating
  match (preprocess_input input_df model_columns scaler).2 with
  | some processed_data =>
      match processed_data.head? with
      | some row =>
          let prediction := model.predict row
          let probability := model.proba1 row
          if prediction = 1 then some ⟨true, probability⟩
          else some ⟨false, 1 - probability⟩
      | none => none
  | none => none

/-- The distinct observed (non-`NaN`) categories of a column. -/
def ColVals.observed : ColVals → List String
  | .num _ => []
  | .str vs => vs.dedup
  | .cat _ vs => (vs.filterMap id).dedup

/-- Cell `i` of a column as a one-row column of the same dtype (`none`
when the column has fewer rows). -/
def ColVals.row1 : ColVals → Nat → Option ColVals
  | .num vs, i => (vs.get? i).map (fun v => .num [v])
  | .str vs, i => (vs.get? i).map (fun v => .str [v])
  | .cat cs vs, i => (vs.get? i).map (fun v => .cat cs [v])

/-- Record `i` of a frame as a one-row frame with the same columns: the
raw input on which a single-record pipeline run for record `i` operates. -/
def Frame.selectRow : Frame → Nat → Option Frame
  | [], _ => some []
  | p :: rest, i =>
      match p.2.row1 i, Frame.selectRow rest i with
      | some cv, some rest' => some ((p.1, cv) :: rest')
      | _, _ => none

/-- Restriction of a numeric column to its row `i` (0 outside). -/
def restrictAt (i : Nat) : ColVals → ColVals
  | .num vs => .num [vs.getD i 0]
  | cv => cv

/-- The numeric value an aligned frame contributes at column `c`, row `i`:
the cell of the column when the encoded frame has it, `0` otherwise. -/
def valAt (e : Frame) (i : Nat) (c : String) : Int :=
  match e.lookup c with
  | some (.num vs) => vs.getD i 0
  | _ => 0

/-- The frame `input_df[features]` takes on a batch whose eight feature
columns hold the given data: `no_of_projects` numeric, the three binned
columns produced by `pd.cut`, and the four raw string columns. -/
def procOf (nops salaries ages tenures : List Int)
    (dnv tiv sxv rav : List String) : Frame :=
  [("no_of_projects", .num nops),
   ("salary_bin", cutCol salary_bins salary_labels salaries),
   ("age_group", cutCol age_bins age_labels ages),
   ("tenure_group", cutCol tenure_bins tenure_labels tenures),
   ("dept_name", .str dnv), ("title", .str tiv), ("sex", .str sxv),
   ("Last_performance_rating", .str rav)]

/-- Whether column `c` of the frame exists and has exactly `n` rows. -/
def colHasRows (df : Frame) (c : String) (n : Nat) : Bool :=
  match df.lookup c with
  | some cv => cv.nRows == n
  | none => false

/-! ## Concrete data used to evaluate the pipeline at specific inputs -/

/-- A well-formed single-record batch with every numeric field inside its
bins. -/
def inRangeBatch : Frame :=
  [("age", .num [30]), ("tenure", .num [5]), ("salary", .num [50000]),
   ("dept_name", .str ["Sales"]), ("title", .str ["Analyst"]), ("sex", .str ["F"]),
   ("Last_performance_rating", .str ["B"]), ("no_of_projects", .num [3])]

/-- An uploaded frame missing all required columns except `age`. -/
def dfMissingCols : Frame := [("age", ColVals.num [30])]

/-- The empty-width scaler (canonical columns `[]`). -/
def emptyScaler : Scaler := ⟨[], []⟩

/-- A scaler of width 1 (mean 0, scale 1). -/
def idScaler1 : Scaler := ⟨[0], [1]⟩

/-- A classifier artifact that always predicts 0 (stay) with class-1
probability 1/4. -/
def constStayClassifier : Classifier := ⟨fun _ => 0, fun _ => 1/4⟩

/-- A two-record batch whose records differ only in `sex` (`F` then `M`). -/
def batchFM : Frame :=
  [("age", .num [30, 30]), ("tenure", .num [5, 5]), ("salary", .num [50000, 50000]),
   ("dept_name", .str ["Sales", "Sales"]), ("title", .str ["Analyst", "Analyst"]),
   ("sex", .str ["F", "M"]),
   ("Last_performance_rating", .str ["B", "B"]), ("no_of_projects", .num [3, 3])]

/-- Record 1 of `batchFM` on its own (`sex = "M"`). -/
def singleM : Frame :=
  [("age", .num [30]), ("tenure", .num [5]), ("salary", .num [50000]),
   ("dept_name", .str ["Sales"]), ("title", .str ["Analyst"]), ("sex", .str ["M"]),
   ("Last_performance_rating", .str ["B"]), ("no_of_projects", .num [3])]

/-- A canonical-column list holding the single training-time indicator
column `sex_M`. -/
def mcSexM : List String := ["sex_M"]

/-- A two-record batch whose raw string columns are constant. -/
def batchConst : Frame :=
  [("age", .num [30, 40]), ("tenure", .num [5, 6]), ("salary", .num [50000, 60000]),
   ("dept_name", .str ["Sales", "Sales"]), ("title", .str ["Analyst", "Analyst"]),
   ("sex", .str ["M", "M"]),
   ("Last_performance_rating", .str ["B", "B"]), ("no_of_projects", .num [3, 4])]

/-- A well-formed single-record batch whose `age` (70) is at or above the
final age boundary 62, hence outside every age bin. -/
def outOfRangeBatch : Frame :=
  [("age", .num [70]), ("tenure", .num [5]), ("salary", .num [50000]),
   ("dept_name", .str ["Sales"]), ("title", .str ["Analyst"]), ("sex", .str ["F"]),
   ("Last_performance_rating", .str ["B"]), ("no_of_projects", .num [3])]

/-- A canonical-column list consisting of the four age-group indicator
columns the training data produces. -/
def mcAgeGroups : List String :=
  ["age_group_29-36", "age_group_37-45", "age_group_46-53", "age_group_54-61"]

/-- An identity scaler of width 4 (mean 0, scale 1 per column). -/
def idScaler4 : Scaler := ⟨[0, 0, 0, 0], [1, 1, 1, 1]⟩

/-! ## Basic lemmas on sorting and frames -/

lemma insertSorted_length (x : String) (l : List String) :
    (insertSorted x l).length = l.length + 1 := by
  induction l with
  | nil => rfl
  | cons y ys ih =>
      simp only [insertSorted]
      split <;> simp [ih]

lemma sortStrings_length (l : List String) : (sortStrings l).length = l.length := by
  induction l with
  | nil => rfl
  | cons x xs ih => simp [sortStrings, insertSorted_length, ih]

lemma mem_insertSorted {a x : String} {l : List String} :
    a ∈ insertSorted x l ↔ a = x ∨ a ∈ l := by
  induction l with
  | nil => simp [insertSorted]
  | cons y ys ih =>
      simp only [insertSorted]
      split
      · simp [List.mem_cons]
      · simp only [List.mem_cons, ih]
        tauto

lemma mem_sortStrings {a : String} {l : List String} :
    a ∈ sortStrings l ↔ a ∈ l := by
  induction l with
  | nil => simp [sortStrings]
  | cons x xs ih => simp [sortStrings, mem_insertSorted, ih]

/-! ## Claim theorems -/

/-- C2: binning uses half-open intervals, lower bound inclusive and upper
bound exclusive: each of the stated intervals for `age`, `tenure` and
`salary` maps exactly to the stated label. -/
theorem C2_binning_intervals (v : Int) :
    ((21 ≤ v ∧ v < 29) → cutVal age_bins age_labels v = some "21-28") ∧
    ((29 ≤ v ∧ v < 37) → cutVal age_bins age_labels v = some "29-36") ∧
    ((37 ≤ v ∧ v < 46) → cutVal age_bins age_labels v = some "37-45") ∧
    ((46 ≤ v ∧ v < 54) → cutVal age_bins age_labels v = some "46-53") ∧
    ((54 ≤ v ∧ v < 62) → cutVal age_bins age_labels v = some "54-61") ∧
    ((0 ≤ v ∧ v < 6) → cutVal tenure_bins tenure_labels v = some "0-5") ∧
    ((6 ≤ v ∧ v < 12) → cutVal tenure_bins tenure_labels v = some "6-11") ∧
    ((12 ≤ v ∧ v < 18) → cutVal tenure_bins tenure_labels v = some "12-17") ∧
    ((18 ≤ v ∧ v < 24) → cutVal tenure_bins tenure_labels v = some "18-23") ∧
    ((24 ≤ v ∧ v < 30) → cutVal tenure_bins tenure_labels v = some "24-29") ∧
    ((40000 ≤ v ∧ v < 60000) → cutVal salary_bins salary_labels v = some "low") ∧
    ((60000 ≤ v ∧ v < 80000) → cutVal salary_bins salary_labels v = some "medium") ∧
    ((80000 ≤ v ∧ v < 100000) → cutVal salary_bins salary_labels v = some "high") ∧
    ((100000 ≤ v ∧ v < 130000) → cutVal salary_bins salary_labels v = some "very_high") := by
  refine ⟨?_, ?_, ?_, ?_, ?_, ?_, ?_, ?_, ?_, ?_, ?_, ?_, ?_, ?_⟩ <;>
    · intro h
      simp only [age_bins, age_labels, tenure_bins, tenure_labels,
        salary_bins, salary_labels, cutVal]
      split_ifs <;> first | rfl | omega

/-- Witness for C2 at the exact edges 21, 61, 0 and 100000. -/
theorem C2_binning_intervals_witness :
    cutVal age_bins age_labels 21 = some "21-28" ∧
    cutVal age_bins age_labels 61 = some "54-61" ∧
    cutVal tenure_bins tenure_labels 0 = some "0-5" ∧
    cutVal salary_bins salary_labels 100000 = some "very_high" :=
  ⟨(C2_binning_intervals 21).1 (by decide),
   (C2_binning_intervals 61).2.2.2.2.1 (by decide),
   (C2_binning_intervals 0).2.2.2.2.2.1 (by decide),
   (C2_binning_intervals 100000).2.2.2.2.2.2.2.2.2.2.2.2.2 (by decide)⟩

/-- C1: on a record whose `age` (70) lies at/above the last boundary, the
pipeline does NOT fail: `pd.cut` yields `NaN`, one-hot encoding silently
omits it, alignment fills every age-group indicator with 0, and the
pipeline returns a scaled matrix (here the all-zero row) with no
out-of-range error.  This evaluates the code at the failing input of the
claim, exhibiting the silent-omission behavior §9 of the spec flags. -/
theorem C1_out_of_range_is_silently_encoded :
    (preprocess_input outOfRangeBatch mcAgeGroups idScaler4).2 =
      some [[0, 0, 0, 0]] := by
  have h1 : (preprocess_input outOfRangeBatch mcAgeGroups idScaler4).2 =
      idScaler4.transform [[0, 0, 0, 0]] := rfl
  rw [h1]
  simp [Scaler.transform, Scaler.transformRow, idScaler4]

/-- C5 counterexample: the `salary_bin` column the pipeline produces for
the batch `[50000]` is a pandas `Categorical` with one distinct observed
category, yet drop-first one-hot encoding generates 3 indicator columns,
not `k - 1 = 0`: the category set of a bin-derived column is its fixed
label vocabulary, not the observed values. -/
theorem C5_counterexample_fixed_vocabulary :
    ¬ ((dummyColsFor "salary_bin" (cutCol salary_bins salary_labels [50000])).length =
        (cutCol salary_bins salary_labels [50000]).observed.length - 1) := by decide

/-- C5 (amended): drop-first one-hot encoding of an object (raw string)
column with `k` distinct observed categories yields exactly `k - 1`
indicator columns, each named after a category present in the data; a
categorical-dtype column (the bin-derived ones) instead always yields
`(number of dtype categories) - 1` columns, whatever values occur. -/
theorem C5_amended_dummy_column_counts (name : String) (vs : List String)
    (cats : List String) (ovs : List (Option String)) :
    ((dummyColsFor name (.str vs)).length = (ColVals.str vs).observed.length - 1 ∧
      ∀ p ∈ dummyColsFor name (.str vs), ∃ g, g ∈ vs ∧ p.1 = name ++ "_" ++ g) ∧
    (dummyColsFor name (.cat cats ovs)).length = cats.length - 1 := by
  refine ⟨⟨?_, ?_⟩, ?_⟩
  · simp [dummyColsFor, ColVals.observed, sortStrings_length]
  · intro p hp
    simp only [dummyColsFor, List.mem_map] at hp
    obtain ⟨g, hg, rfl⟩ := hp
    exact ⟨g, List.mem_dedup.mp (mem_sortStrings.mp (List.mem_of_mem_drop hg)), rfl⟩
  · simp [dummyColsFor]

/-! ## Lookup, fill and selection lemmas for column alignment -/

lemma lookup_append (df₁ df₂ : Frame) (c : String) :
    (df₁ ++ df₂).lookup c =
      match df₁.lookup c with
      | some v => some v
      | none => df₂.lookup c := by
  induction df₁ with
  | nil => simp [Frame.lookup]
  | cons p rest ih =>
      obtain ⟨c', v⟩ := p
      by_cases h : c' = c <;> simp [Frame.lookup, h, ih]

lemma lookup_isSome_iff (df : Frame) (c : String) :
    (df.lookup c).isSome ↔ c ∈ df.map Prod.fst := by
  induction df with
  | nil => simp [Frame.lookup]
  | cons p rest ih =>
      obtain ⟨c', v⟩ := p
      by_cases h : c' = c
      · subst h; simp [Frame.lookup]
      · simp only [Frame.lookup, if_neg h, List.map_cons, List.mem_cons, ih]
        constructor
        · exact Or.inr
        · rintro (rfl | hm)
          · exact absurd rfl h
          · exact hm

lemma lookup_mem {df : Frame} {c : String} {v : ColVals}
    (h : df.lookup c = some v) : (c, v) ∈ df := by
  induction df with
  | nil => simp [Frame.lookup] at h
  | cons p rest ih =>
      obtain ⟨c', v'⟩ := p
      by_cases hc : c' = c
      · subst hc
        simp [Frame.lookup] at h
        subst h
        exact List.mem_cons_self _ _
      · simp only [Frame.lookup, if_neg hc] at h
        exact List.mem_cons_of_mem _ (ih h)

lemma lookup_zeros_list (l : List String) (n : Nat) (c : String) :
    (Frame.lookup (l.map (fun c => (c, ColVals.num (List.replicate n 0)))) c) =
      if c ∈ l then some (ColVals.num (List.replicate n 0)) else none := by
  induction l with
  | nil => simp [Frame.lookup]
  | cons x xs ih =>
      by_cases h : x = c
      · subst h
        simp [Frame.lookup]
      · have h' : ¬ c = x := fun he => h he.symm
        simp [Frame.lookup, h, h', ih]

lemma lookup_addMissing (df : Frame) (mc : List String) (n : Nat) (c : String) :
    (addMissing df mc n).lookup c =
      match df.lookup c with
      | some v => some v
      | none => if c ∈ mc then some (ColVals.num (List.replicate n 0)) else none := by
  unfold addMissing
  rw [lookup_append, lookup_zeros_list]
  cases h : df.lookup c with
  | some v => simp
  | none => simp [List.mem_filter, List.mem_dedup, h]

lemma select_forall_isSome {df : Frame} {cs : List String}
    (h : ∀ c ∈ cs, (df.lookup c).isSome) :
    ∃ r, df.select cs = some r ∧ r.map Prod.fst = cs ∧
      ∀ p ∈ r, df.lookup p.1 = some p.2 := by
  induction cs with
  | nil => exact ⟨[], rfl, rfl, by simp⟩
  | cons c cs ih =>
      obtain ⟨v, hv⟩ := Option.isSome_iff_exists.mp (h c (List.mem_cons_self _ _))
      obtain ⟨r, hr, hmap, hmem⟩ := ih (fun c' hc' => h c' (List.mem_cons_of_mem _ hc'))
      refine ⟨(c, v) :: r, ?_, by simp [hmap], ?_⟩
      · simp [Frame.select, hv, hr]
      · intro p hp
        rcases List.mem_cons.mp hp with h1 | h2
        · subst h1; exact hv
        · exact hmem p h2

lemma select_cons_not_mem (df : Frame) (c : String) (v : ColVals) :
    ∀ (cs : List String), c ∉ cs →
      Frame.select ((c, v) :: df) cs = df.select cs
  | [], _ => rfl
  | c' :: cs, h => by
      have hne : c ≠ c' := fun he => h (he ▸ List.mem_cons_self c' cs)
      have hrec := select_cons_not_mem df c v cs (fun hm => h (List.mem_cons_of_mem _ hm))
      simp [Frame.select, Frame.lookup, hne, hrec]

lemma select_self (df : Frame) (h : (df.map Prod.fst).Nodup) :
    df.select (df.map Prod.fst) = some df := by
  induction df with
  | nil => rfl
  | cons p rest ih =>
      obtain ⟨c, v⟩ := p
      simp only [List.map_cons, List.nodup_cons] at h ⊢
      have hskip := select_cons_not_mem rest c v (rest.map Prod.fst) h.1
      simp [Frame.select, Frame.lookup, hskip, ih h.2]

lemma addMissing_self (df : Frame) (mc : List String) (n : Nat)
    (h : df.map Prod.fst = mc) : addMissing df mc n = df := by
  unfold addMissing
  have hnil : mc.dedup.filter (fun c => df.lookup c = none) = [] := by
    rw [List.filter_eq_nil_iff]
    intro c hc
    have hmem : c ∈ df.map Prod.fst := h ▸ List.mem_dedup.mp hc
    have := (lookup_isSome_iff df c).mpr hmem
    simpa [Option.isSome_iff_ne_none] using this
  simp [hnil]

/-- Alignment always succeeds and returns exactly the model columns in
their recorded order; present columns keep their values, absent ones are
filled with zeros. -/
lemma alignColumns_spec (df : Frame) (mc : List String) (n : Nat) :
    ∃ aligned, alignColumns df mc n = some aligned ∧
      aligned.map Prod.fst = mc ∧
      ∀ p ∈ aligned,
        df.lookup p.1 = some p.2 ∨
        (df.lookup p.1 = none ∧ p.2 = ColVals.num (List.replicate n 0)) := by
  have hsome : ∀ c ∈ mc, ((addMissing df mc n).lookup c).isSome := by
    intro c hc
    rw [lookup_addMissing]
    cases h : df.lookup c <;> simp [h, hc]
  obtain ⟨r, hr, hmap, hmem⟩ := select_forall_isSome hsome
  refine ⟨r, hr, hmap, ?_⟩
  intro p hp
  have hl := hmem p hp
  rw [lookup_addMissing] at hl
  have hpmc : p.1 ∈ mc := hmap ▸ List.mem_map_of_mem Prod.fst hp
  cases h : df.lookup p.1 with
  | some v =>
      left
      rw [h] at hl
      simpa using hl
  | none =>
      right
      rw [h] at hl
      simp only [if_pos hpmc, Option.some_inj] at hl
      exact ⟨rfl, hl.symm⟩

/-- C3: for any encoded frame, alignment succeeds and returns exactly the
model columns in their recorded order, where each column keeps its encoded
values when present in the frame and is all-zero when absent; columns of
the frame outside the model columns do not appear. -/
theorem C3_alignment_reindexes_exactly (df : Frame) (mc : List String) (n : Nat) :
    ∃ aligned, alignColumns df mc n = some aligned ∧
      aligned.map Prod.fst = mc ∧
      ∀ p ∈ aligned,
        df.lookup p.1 = some p.2 ∨
        (df.lookup p.1 = none ∧ p.2 = ColVals.num (List.replicate n 0)) :=
  alignColumns_spec df mc n

/-- C6: alignment is idempotent — a frame whose columns are exactly the
(duplicate-free) model columns in canonical order is returned unchanged. -/
theorem C6_alignment_idempotent (df : Frame) (mc : List String) (n : Nat)
    (h : df.map Prod.fst = mc) (hnd : mc.Nodup) :
    alignColumns df mc n = some df := by
  unfold alignColumns
  rw [addMissing_self df mc n h, ← h]
  exact select_self df (h ▸ hnd)

/-- Witness for C6: a two-column frame already in canonical order is left
unchanged by alignment. -/
theorem C6_alignment_idempotent_witness :
    alignColumns [("no_of_projects", ColVals.num [3]), ("sex_M", ColVals.num [1])]
      ["no_of_projects", "sex_M"] 1 =
      some [("no_of_projects", ColVals.num [3]), ("sex_M", ColVals.num [1])] :=
  C6_alignment_idempotent _ _ 1 rfl (by decide)

/-- Witness for C5 (amended): a sex column with observed categories
`{F, M}` yields the single column `sex_M`; an age-group column with one
observed value still yields 4 columns. -/
theorem C5_amended_dummy_column_counts_witness :
    (dummyColsFor "sex" (ColVals.str ["F", "M", "F"])).length =
      (ColVals.str ["F", "M", "F"]).observed.length - 1 ∧
    (dummyColsFor "age_group" (ColVals.cat age_labels [some "21-28"])).length =
      age_labels.length - 1 :=
  ⟨(C5_amended_dummy_column_counts "sex" ["F", "M", "F"] [] []).1.1,
   (C5_amended_dummy_column_counts "age_group" [] age_labels [some "21-28"]).2⟩

/-! ## Column assignment and the request glue -/

lemma lookup_setCol (df : Frame) (c c' : String) (v : ColVals) :
    (df.setCol c v).lookup c' = if c = c' then some v else df.lookup c' := by
  induction df with
  | nil =>
      by_cases h : c = c' <;> simp [Frame.setCol, Frame.lookup, h]
  | cons p rest ih =>
      obtain ⟨c₀, v₀⟩ := p
      simp only [Frame.setCol]
      by_cases h : c₀ = c
      · subst h
        by_cases h' : c₀ = c'
        · subst h'; simp [Frame.lookup]
        · simp [Frame.lookup, h']
      · rw [if_neg h]
        by_cases h' : c₀ = c'
        · subst h'
          have hne : ¬ c = c₀ := fun he => h he.symm
          simp [Frame.lookup, hne]
        · simp [Frame.lookup, h', ih]

/-- C8: an uploaded batch missing one of the eight required columns is
rejected with the missing-column error; the caller's frame is untouched
(no preprocessing mutation took place) and no prediction outcome is
produced. -/
theorem C8_missing_required_column_rejected (df : Frame) (mc : List String)
    (s : Scaler) (m : Classifier)
    (h : ∃ c ∈ required_cols, df.lookup c = none) :
    main_app_upload df mc s m = (df, UploadOutcome.missingCols) := by
  obtain ⟨c, hc, hnone⟩ := h
  have hall : required_cols.all (fun c => (df.lookup c).isSome) = false := by
    rw [List.all_eq_false]
    exact ⟨c, hc, by simp [hnone]⟩
  simp [main_app_upload, hall]

/-- Witness for C8: a frame holding only an `age` column is rejected
unchanged. -/
theorem C8_missing_required_column_rejected_witness :
    main_app_upload dfMissingCols [] emptyScaler constStayClassifier =
      (dfMissingCols, UploadOutcome.missingCols) :=
  C8_missing_required_column_rejected dfMissingCols [] emptyScaler constStayClassifier
    (by decide)

/-- C10 counterexample: `preprocess_input` mutates the caller's frame — on
a well-formed batch the frame seen by the caller afterwards is not the
frame passed in (it gained `age_group`, `tenure_group`, `salary_bin`). -/
theorem C10_counterexample_frame_mutated :
    (preprocess_input inRangeBatch mcAgeGroups idScaler4).1 ≠ inRangeBatch ∧
    (preprocess_input inRangeBatch mcAgeGroups idScaler4).1.lookup "age_group" =
      some (ColVals.cat age_labels [some "29-36"]) ∧
    inRangeBatch.lookup "age_group" = none := by
  refine ⟨?_, by decide, by decide⟩
  decide

/-- C10 (amended): `preprocess_input` mutates the caller's frame by
exactly the three derived columns — `age_group`, `tenure_group` and
`salary_bin` hold the binned columns after the call, and every other
column is exactly as before; the returned matrix is a pure function of
the arguments (the embedding is a function). -/
theorem C10_amended_mutates_only_derived_columns (df : Frame) (mc : List String)
    (s : Scaler) (ages tenures salaries : List Int)
    (ha : df.getNum "age" = some ages)
    (ht : df.getNum "tenure" = some tenures)
    (hs : df.getNum "salary" = some salaries) :
    (preprocess_input df mc s).1.lookup "age_group" =
        some (cutCol age_bins age_labels ages) ∧
    (preprocess_input df mc s).1.lookup "tenure_group" =
        some (cutCol tenure_bins tenure_labels tenures) ∧
    (preprocess_input df mc s).1.lookup "salary_bin" =
        some (cutCol salary_bins salary_labels salaries) ∧
    ∀ c, c ≠ "age_group" → c ≠ "tenure_group" → c ≠ "salary_bin" →
      (preprocess_input df mc s).1.lookup c = df.lookup c := by
  have h1 : (preprocess_input df mc s).1 =
      ((df.setCol "age_group" (cutCol age_bins age_labels ages)).setCol
        "tenure_group" (cutCol tenure_bins tenure_labels tenures)).setCol
        "salary_bin" (cutCol salary_bins salary_labels salaries) := by
    simp [preprocess_input, ha, ht, hs]
  refine ⟨?_, ?_, ?_, ?_⟩
  · rw [h1, lookup_setCol, lookup_setCol, lookup_setCol]
    simp
  · rw [h1, lookup_setCol, lookup_setCol]
    simp
  · rw [h1, lookup_setCol]
    simp
  · intro c hag htg hsb
    rw [h1, lookup_setCol, lookup_setCol, lookup_setCol,
      if_neg (fun he => hsb he.symm), if_neg (fun he => htg he.symm),
      if_neg (fun he => hag he.symm)]

/-- Witness for C10 (amended) on the concrete in-range batch: the `age`
column is untouched while `age_group` was added. -/
theorem C10_amended_mutates_only_derived_columns_witness :
    (preprocess_input inRangeBatch mcAgeGroups idScaler4).1.lookup "age_group" =
      some (cutCol age_bins age_labels [30]) ∧
    (preprocess_input inRangeBatch mcAgeGroups idScaler4).1.lookup "age" =
      inRangeBatch.lookup "age" :=
  ⟨(C10_amended_mutates_only_derived_columns inRangeBatch mcAgeGroups idScaler4
      [30] [5] [50000] rfl rfl rfl).1,
   (C10_amended_mutates_only_derived_columns inRangeBatch mcAgeGroups idScaler4
      [30] [5] [50000] rfl rfl rfl).2.2.2 "age"
      (by decide) (by decide) (by decide)⟩

/-! ## Shape lemmas: every encoded column is numeric with one cell per
record, and the later pipeline stages preserve row and column counts -/

lemma dummyColsFor_num (name : String) (cv : ColVals) :
    ∀ p ∈ dummyColsFor name cv, ∃ vs, p.2 = ColVals.num vs ∧ vs.length = cv.nRows := by
  intro p hp
  cases cv with
  | num vs => simp [dummyColsFor] at hp
  | str vs =>
      simp only [dummyColsFor, List.mem_map] at hp
      obtain ⟨g, _, rfl⟩ := hp
      exact ⟨_, rfl, by simp [indicatorStr, ColVals.nRows]⟩
  | cat cats vs =>
      simp only [dummyColsFor, List.mem_map] at hp
      obtain ⟨g, _, rfl⟩ := hp
      exact ⟨_, rfl, by simp [indicatorCat, ColVals.nRows]⟩

lemma get_dummies_num (df : Frame) (n : Nat) (h : ∀ p ∈ df, p.2.nRows = n) :
    ∀ p ∈ get_dummies df, ∃ vs, p.2 = ColVals.num vs ∧ vs.length = n := by
  intro p hp
  rw [get_dummies, List.mem_append] at hp
  rcases hp with hp | hp
  · obtain ⟨hmem, hnum⟩ := List.mem_filter.mp hp
    cases hcv : p.2 with
    | num vs => exact ⟨vs, rfl, by rw [← h p hmem, hcv]; rfl⟩
    | str vs => rw [hcv] at hnum; simp [ColVals.isNum] at hnum
    | cat cats vs => rw [hcv] at hnum; simp [ColVals.isNum] at hnum
  · obtain ⟨q, hq, hpq⟩ := List.mem_flatMap.mp hp
    obtain ⟨vs, hvs, hlen⟩ := dummyColsFor_num q.1 q.2 p hpq
    exact ⟨vs, hvs, by rw [hlen]; exact h q (List.mem_filter.mp hq).1⟩

lemma frameRow_eq (i : Nat) (f : String → Int) :
    ∀ (r : Frame), (∀ p ∈ r, cellAt p.2 i = some (f p.1)) →
      frameRow r i = some (r.map (fun p => f p.1))
  | [], _ => rfl
  | p :: rest, h => by
      have h1 := h p (List.mem_cons_self _ _)
      have h2 := frameRow_eq i f rest (fun q hq => h q (List.mem_cons_of_mem _ hq))
      simp [frameRow, h1, h2]

lemma frameRowsFrom_spec (df : Frame) (k : Nat) :
    ∀ (j : Nat), (∀ l, l < k → (frameRow df (j + l)).isSome) →
      ∃ rows, frameRowsFrom df j k = some rows ∧ rows.length = k ∧
        ∀ l, l < k → rows.get? l = frameRow df (j + l) := by
  induction k with
  | zero => exact fun j _ => ⟨[], rfl, rfl, fun l hl => absurd hl (by omega)⟩
  | succ k ih =>
      intro j h
      obtain ⟨r, hr⟩ := Option.isSome_iff_exists.mp (by simpa using h 0 (by omega))
      obtain ⟨rows, hrows, hlen, hget⟩ := ih (j + 1) (fun l hl => by
        have heq : j + 1 + l = j + (l + 1) := by omega
        rw [heq]
        exact h (l + 1) (by omega))
      refine ⟨r :: rows, ?_, by simp [hlen], ?_⟩
      · simp [frameRowsFrom, hr, hrows]
      · intro l hl
        cases l with
        | zero => simpa using hr.symm
        | succ l' =>
            have heq : j + 1 + l' = j + (l' + 1) := by omega
            simpa [heq] using hget l' (by omega)

lemma transform_spec (s : Scaler) (w : Nat) (hm : s.mean.length = w)
    (hsc : s.scale.length = w) :
    ∀ (m : List (List Int)), (∀ r ∈ m, r.length = w) →
      ∃ m', s.transform m = some m' ∧ m'.length = m.length ∧
        ∀ r' ∈ m', r'.length = w := by
  intro m
  induction m with
  | nil => exact fun _ => ⟨[], rfl, rfl, by simp⟩
  | cons r rs ih =>
      intro h
      have hr : r.length = w := h r (List.mem_cons_self _ _)
      have hrow : s.transformRow r =
          some ((r.zip (s.mean.zip s.scale)).map
            (fun p => ((p.1 : ℚ) - p.2.1) / p.2.2)) := by
        rw [Scaler.transformRow, if_pos ⟨by omega, by omega⟩]
      obtain ⟨m', hm', hlen, hall⟩ := ih (fun q hq => h q (List.mem_cons_of_mem _ hq))
      refine ⟨((r.zip (s.mean.zip s.scale)).map
        (fun p => ((p.1 : ℚ) - p.2.1) / p.2.2)) :: m', ?_, by simp [hlen], ?_⟩
      · simp [Scaler.transform, hrow, hm']
      · intro r' hr'
        rcases List.mem_cons.mp hr' with rfl | hmem
        · simp [hr, hm, hsc]
        · exact hall r' hmem

lemma transform_get? (s : Scaler) :
    ∀ (m : List (List Int)) (m' : List (List ℚ)), s.transform m = some m' →
      ∀ l, m'.get? l = (m.get? l).bind s.transformRow := by
  intro m
  induction m with
  | nil =>
      intro m' h l
      simp only [Scaler.transform, Option.some_inj] at h
      subst h
      simp
  | cons r rs ih =>
      intro m' h l
      cases hr : s.transformRow r with
      | none => rw [Scaler.transform, hr] at h; cases h
      | some tr =>
          cases hrs : s.transform rs with
          | none => rw [Scaler.transform, hr, hrs] at h; cases h
          | some trs =>
              rw [Scaler.transform, hr, hrs, Option.some_inj] at h
              subst h
              cases l with
              | zero => simp [hr]
              | succ l' => simpa using ih trs hrs l'

lemma aligned_cellAt (e : Frame) (mc : List String) (n : Nat)
    (he : ∀ p ∈ e, ∃ vs, p.2 = ColVals.num vs ∧ vs.length = n)
    {al : Frame} (hal : alignColumns e mc n = some al)
    (i : Nat) (hi : i < n) :
    ∀ p ∈ al, cellAt p.2 i = some (valAt e i p.1) := by
  obtain ⟨al', hal', _, hmem⟩ := alignColumns_spec e mc n
  rw [hal] at hal'
  obtain rfl : al = al' := by simpa using hal'
  intro p hp
  rcases hmem p hp with hlook | ⟨hlook, hzero⟩
  · obtain ⟨vs, hvs, hlen⟩ := he p (lookup_mem hlook)
    have hlt : i < vs.length := by omega
    obtain ⟨x, hx⟩ := Option.isSome_iff_exists.mp
      (by rw [Option.isSome_iff_ne_none, Ne, List.get?_eq_none]; omega :
        (vs.get? i).isSome)
    rw [hvs] at hlook ⊢
    simp only [cellAt, valAt, hlook, hx, List.getD_eq_get?]
    simp [hx]
  · rw [hzero]
    simp only [cellAt, valAt, hlook]
    have hrep : (List.replicate n (0 : Int))[i]? = some 0 := by
      rw [List.getElem?_replicate, if_pos hi]
    simp [hrep]

lemma colHasRows_spec {df : Frame} {c : String} {n : Nat}
    (h : colHasRows df c n = true) :
    ∃ cv, df.lookup c = some cv ∧ cv.nRows = n := by
  unfold colHasRows at h
  cases hx : df.lookup c with
  | none => rw [hx] at h; cases h
  | some cv => rw [hx] at h; exact ⟨cv, rfl, by simpa using h⟩

lemma lookup_binned (df : Frame) (A T S : ColVals) (c : String) :
    (((df.setCol "age_group" A).setCol "tenure_group" T).setCol
      "salary_bin" S).lookup c =
      if "salary_bin" = c then some S
      else if "tenure_group" = c then some T
      else if "age_group" = c then some A
      else df.lookup c := by
  rw [lookup_setCol, lookup_setCol, lookup_setCol]

lemma preprocess_eq (df : Frame) (mc : List String) (s : Scaler)
    (ages tenures salaries : List Int)
    (ha : df.getNum "age" = some ages) (ht : df.getNum "tenure" = some tenures)
    (hsa : df.getNum "salary" = some salaries) :
    (preprocess_input df mc s).2 =
      ((((df.setCol "age_group" (cutCol age_bins age_labels ages)).setCol
          "tenure_group" (cutCol tenure_bins tenure_labels tenures)).setCol
          "salary_bin" (cutCol salary_bins salary_labels salaries)).select
            features).bind (fun processed =>
        (alignColumns (get_dummies processed) mc ages.length).bind (fun aligned =>
          (frameMatrix aligned ages.length).bind (fun mat => s.transform mat))) := by
  simp [preprocess_input, ha, ht, hsa]

/-- Success and shape of the whole pipeline on a well-formed batch: the
emitted matrix exists, has one row per record and `mc.length` columns. -/
lemma preprocess_shape (df : Frame) (mc : List String) (s : Scaler) (n : Nat)
    (ages tenures salaries : List Int)
    (ha : df.getNum "age" = some ages) (hlen : ages.length = n)
    (ht : df.getNum "tenure" = some tenures) (htl : tenures.length = n)
    (hsa : df.getNum "salary" = some salaries) (hsl : salaries.length = n)
    (h1 : colHasRows df "no_of_projects" n = true)
    (h2 : colHasRows df "dept_name" n = true)
    (h3 : colHasRows df "title" n = true)
    (h4 : colHasRows df "sex" n = true)
    (h5 : colHasRows df "Last_performance_rating" n = true)
    (hw1 : s.mean.length = mc.length) (hw2 : s.scale.length = mc.length) :
    ∃ mat, (preprocess_input df mc s).2 = some mat ∧ mat.length = n ∧
      ∀ row ∈ mat, row.length = mc.length := by
  subst hlen
  obtain ⟨cvN, fN, rN⟩ := colHasRows_spec h1
  obtain ⟨cvD, fD, rD⟩ := colHasRows_spec h2
  obtain ⟨cvT, fT, rT⟩ := colHasRows_spec h3
  obtain ⟨cvS, fS, rS⟩ := colHasRows_spec h4
  obtain ⟨cvR, fR, rR⟩ := colHasRows_spec h5
  set B := ((df.setCol "age_group" (cutCol age_bins age_labels ages)).setCol
      "tenure_group" (cutCol tenure_bins tenure_labels tenures)).setCol
      "salary_bin" (cutCol salary_bins salary_labels salaries) with hB
  have lb := lookup_binned df (cutCol age_bins age_labels ages)
    (cutCol tenure_bins tenure_labels tenures)
    (cutCol salary_bins salary_labels salaries)
  have LN : B.lookup "no_of_projects" = some cvN := by rw [hB, lb]; simp [fN]
  have LSB : B.lookup "salary_bin" =
      some (cutCol salary_bins salary_labels salaries) := by rw [hB, lb]; simp
  have LAG : B.lookup "age_group" =
      some (cutCol age_bins age_labels ages) := by rw [hB, lb]; simp
  have LTG : B.lookup "tenure_group" =
      some (cutCol tenure_bins tenure_labels tenures) := by rw [hB, lb]; simp
  have LD : B.lookup "dept_name" = some cvD := by rw [hB, lb]; simp [fD]
  have LT : B.lookup "title" = some cvT := by rw [hB, lb]; simp [fT]
  have LS : B.lookup "sex" = some cvS := by rw [hB, lb]; simp [fS]
  have LR : B.lookup "Last_performance_rating" = some cvR := by rw [hB, lb]; simp [fR]
  have hfeat : ∀ c ∈ features, (B.lookup c).isSome := by
    intro c hc
    simp only [features, List.mem_cons, List.not_mem_nil, or_false] at hc
    rcases hc with rfl | rfl | rfl | rfl | rfl | rfl | rfl | rfl <;>
      simp [LN, LSB, LAG, LTG, LD, LT, LS, LR]
  obtain ⟨processed, hproc, hpmap, hpmem⟩ := select_forall_isSome hfeat
  have hrows : ∀ p ∈ processed, p.2.nRows = ages.length := by
    intro p hp
    have hlook := hpmem p hp
    have hpf : p.1 ∈ features := hpmap ▸ List.mem_map_of_mem Prod.fst hp
    simp only [features, List.mem_cons, List.not_mem_nil, or_false] at hpf
    rcases hpf with hp1 | hp1 | hp1 | hp1 | hp1 | hp1 | hp1 | hp1 <;> rw [hp1] at hlook
    · rw [LN, Option.some_inj] at hlook
      rw [← hlook]; exact rN
    · rw [LSB, Option.some_inj] at hlook
      rw [← hlook]
      simp [cutCol, ColVals.nRows, hsl]
    · rw [LAG, Option.some_inj] at hlook
      rw [← hlook]
      simp [cutCol, ColVals.nRows]
    · rw [LTG, Option.some_inj] at hlook
      rw [← hlook]
      simp [cutCol, ColVals.nRows, htl]
    · rw [LD, Option.some_inj] at hlook
      rw [← hlook]; exact rD
    · rw [LT, Option.some_inj] at hlook
      rw [← hlook]; exact rT
    · rw [LS, Option.some_inj] at hlook
      rw [← hlook]; exact rS
    · rw [LR, Option.some_inj] at hlook
      rw [← hlook]; exact rR
  have henc := get_dummies_num processed ages.length hrows
  obtain ⟨al, hal, halmap, _⟩ := alignColumns_spec (get_dummies processed) mc ages.length
  have hallen : al.length = mc.length := by
    have := congrArg List.length halmap
    simpa using this
  have hfr : ∀ i, i < ages.length →
      frameRow al i = some (al.map (fun p => valAt (get_dummies processed) i p.1)) :=
    fun i hi => frameRow_eq i _ al (aligned_cellAt (get_dummies processed) mc
      ages.length henc hal i hi)
  obtain ⟨rows, hrowsEq, hrlen, hrget⟩ := frameRowsFrom_spec al ages.length 0
    (fun l hl => by rw [Nat.zero_add, hfr l hl]; rfl)
  have hrowlen : ∀ row ∈ rows, row.length = mc.length := by
    intro row hrow
    obtain ⟨l, hl⟩ := List.mem_iff_get?.mp hrow
    have hl' : l < rows.length := by
      rcases List.get?_eq_some.mp hl with ⟨hh, _⟩
      exact hh
    have hlk : l < ages.length := by omega
    rw [hrget l hlk, Nat.zero_add, hfr l hlk, Option.some_inj] at hl
    rw [← hl]
    simpa using hallen
  obtain ⟨mat, hmat, hmlen, hmrows⟩ := transform_spec s mc.length hw1 hw2 rows hrowlen
  refine ⟨mat, ?_, by omega, hmrows⟩
  rw [preprocess_eq df mc s ages tenures salaries ha ht hsa, ← hB, hproc,
    Option.some_bind, hal, Option.some_bind]
  show (frameRowsFrom al 0 ages.length).bind (fun m => s.transform m) = some mat
  rw [hrowsEq, Option.some_bind, hmat]

/-- C4: on any valid batch of at least one record (the eight required
feature columns present with one cell per record, numeric `age`, `tenure`,
`salary`, and scaler artifacts fitted to the canonical width), the
pipeline succeeds and emits a non-empty matrix whose width is exactly
`len(CanonicalColumns)` — the `SchemaMismatchError` condition is
unreachable for valid inputs. -/
theorem C4_output_width_matches_canonical_columns
    (df : Frame) (mc : List String) (s : Scaler) (n : Nat) (hn : 1 ≤ n)
    (ages tenures salaries : List Int)
    (ha : df.getNum "age" = some ages) (hlen : ages.length = n)
    (ht : df.getNum "tenure" = some tenures) (htl : tenures.length = n)
    (hsa : df.getNum "salary" = some salaries) (hsl : salaries.length = n)
    (h1 : colHasRows df "no_of_projects" n = true)
    (h2 : colHasRows df "dept_name" n = true)
    (h3 : colHasRows df "title" n = true)
    (h4 : colHasRows df "sex" n = true)
    (h5 : colHasRows df "Last_performance_rating" n = true)
    (hw1 : s.mean.length = mc.length) (hw2 : s.scale.length = mc.length) :
    ∃ mat, (preprocess_input df mc s).2 = some mat ∧ mat ≠ [] ∧
      mat.length = n ∧ ∀ row ∈ mat, row.length = mc.length := by
  obtain ⟨mat, hm, hmlen, hrows⟩ := preprocess_shape df mc s n ages tenures salaries
    ha hlen ht htl hsa hsl h1 h2 h3 h4 h5 hw1 hw2
  exact ⟨mat, hm, List.length_pos.mp (by omega), hmlen, hrows⟩

/-- Witness for C4 on the concrete one-record batch with the four
age-group canonical columns: one row, width 4. -/
theorem C4_output_width_matches_canonical_columns_witness :
    ∃ mat, (preprocess_input inRangeBatch mcAgeGroups idScaler4).2 = some mat ∧
      mat ≠ [] ∧ mat.length = 1 ∧ ∀ row ∈ mat, row.length = mcAgeGroups.length :=
  C4_output_width_matches_canonical_columns inRangeBatch mcAgeGroups idScaler4 1
    (by decide) [30] [5] [50000] rfl rfl rfl rfl rfl rfl
    (by decide) (by decide) (by decide) (by decide) (by decide) rfl rfl

/-! ## Record extraction and the batch-dependence of encoding -/

lemma selectRow_lookup : ∀ (df : Frame) (i : Nat) (dfi : Frame),
    df.selectRow i = some dfi →
    ∀ c, dfi.lookup c = (df.lookup c).bind (fun cv => cv.row1 i)
  | [], _, dfi, h, c => by
      simp only [Frame.selectRow, Option.some_inj] at h
      subst h
      simp [Frame.lookup]
  | p :: rest, i, dfi, h, c => by
      rcases hr1 : p.2.row1 i with _ | cv
      · rw [Frame.selectRow, hr1] at h; cases h
      · rcases hrest : Frame.selectRow rest i with _ | rest'
        · rw [Frame.selectRow, hr1, hrest] at h; cases h
        · rw [Frame.selectRow, hr1, hrest, Option.some_inj] at h
          subst h
          by_cases hc : p.1 = c
          · subst hc
            simp [Frame.lookup, hr1]
          · simp only [Frame.lookup, if_neg hc]
            exact selectRow_lookup rest i rest' hrest c

lemma row1_isSome {cv : ColVals} {i n : Nat} (h : cv.nRows = n) (hi : i < n) :
    (cv.row1 i).isSome := by
  cases cv <;>
    simp_all [ColVals.row1, ColVals.nRows, List.get?_eq_none, Option.isSome_iff_ne_none]

lemma selectRow_isSome : ∀ (df : Frame) (i n : Nat),
    (∀ p ∈ df, p.2.nRows = n) → i < n → ∃ dfi, df.selectRow i = some dfi
  | [], _, _, _, _ => ⟨[], rfl⟩
  | p :: rest, i, n, h, hi => by
      obtain ⟨cv, hcv⟩ := Option.isSome_iff_exists.mp
        (row1_isSome (h p (List.mem_cons_self _ _)) hi)
      obtain ⟨rest', hrest⟩ := selectRow_isSome rest i n
        (fun q hq => h q (List.mem_cons_of_mem _ hq)) hi
      exact ⟨(p.1, cv) :: rest', by rw [Frame.selectRow, hcv, hrest]⟩

lemma lookup_map_restrict (i : Nat) :
    ∀ (e : Frame) (c : String),
      (Frame.lookup (e.map (fun p => (p.1, restrictAt i p.2))) c) =
        (e.lookup c).map (restrictAt i)
  | [], _ => rfl
  | p :: rest, c => by
      by_cases hc : p.1 = c
      · subst hc
        simp [Frame.lookup]
      · simp only [List.map_cons, Frame.lookup, if_neg hc]
        exact lookup_map_restrict i rest c

lemma valAt_restrict (e : Frame) (i : Nat) (c : String) :
    valAt (e.map (fun p => (p.1, restrictAt i p.2))) 0 c = valAt e i c := by
  rw [valAt, valAt, lookup_map_restrict i e c]
  cases h : e.lookup c with
  | none => rfl
  | some cv => cases cv <;> simp [restrictAt]

lemma dummyColsFor_str_single (name v : String) :
    dummyColsFor name (.str [v]) = [] := by
  simp [dummyColsFor, sortStrings, insertSorted]

lemma dummyColsFor_str_replicate (name v : String) (n : Nat) (hn : 1 ≤ n) :
    dummyColsFor name (.str (List.replicate n v)) = [] := by
  simp [dummyColsFor, List.replicate_dedup (by omega : n ≠ 0), sortStrings, insertSorted]

lemma dummyColsFor_cat_restrict (name : String) (cats : List String)
    (vals : List (Option String)) (i : Nat) (x : Option String)
    (hx : vals.get? i = some x) :
    dummyColsFor name (.cat cats [x]) =
      (dummyColsFor name (.cat cats vals)).map (fun p => (p.1, restrictAt i p.2)) := by
  simp only [dummyColsFor, List.map_map]
  have hfun : (fun g => (name ++ "_" ++ g, ColVals.num (indicatorCat g [x]))) =
      ((fun p => (p.1, restrictAt i p.2)) ∘
        (fun g => (name ++ "_" ++ g, ColVals.num (indicatorCat g vals)))) := by
    funext g
    simp only [Function.comp_apply, restrictAt, indicatorCat, List.map_cons,
      List.map_nil]
    have : (vals.map (fun v => if v = some g then (1 : Int) else 0)).getD i 0 =
        (if x = some g then (1 : Int) else 0) := by
      rw [List.getD_eq_get?, List.get?_map, hx]
      rfl
    rw [this]
  rw [hfun]

lemma select_features_eq (B : Frame)
    (nops salaries ages tenures : List Int) (dnv tiv sxv rav : List String)
    (LN : B.lookup "no_of_projects" = some (.num nops))
    (LSB : B.lookup "salary_bin" = some (cutCol salary_bins salary_labels salaries))
    (LAG : B.lookup "age_group" = some (cutCol age_bins age_labels ages))
    (LTG : B.lookup "tenure_group" = some (cutCol tenure_bins tenure_labels tenures))
    (LD : B.lookup "dept_name" = some (.str dnv))
    (LT : B.lookup "title" = some (.str tiv))
    (LS : B.lookup "sex" = some (.str sxv))
    (LR : B.lookup "Last_performance_rating" = some (.str rav)) :
    B.select features = some (procOf nops salaries ages tenures dnv tiv sxv rav) := by
  simp only [features, Frame.select, LN, LSB, LAG, LTG, LD, LT, LS, LR, procOf]

/-- The full pipeline on a batch whose eight feature columns are known:
it succeeds, and row `i` of the output is the scaled model-column vector
read off the encoded frame at row `i`. -/
lemma preprocess_output_row (df : Frame) (mc : List String) (s : Scaler) (n : Nat)
    (ages tenures salaries nops : List Int) (dnv tiv sxv rav : List String)
    (ha : df.lookup "age" = some (.num ages)) (hlen : ages.length = n)
    (ht : df.lookup "tenure" = some (.num tenures)) (htl : tenures.length = n)
    (hsa : df.lookup "salary" = some (.num salaries)) (hsl : salaries.length = n)
    (hnop : df.lookup "no_of_projects" = some (.num nops)) (hnl : nops.length = n)
    (hdn : df.lookup "dept_name" = some (.str dnv)) (hdl : dnv.length = n)
    (hti : df.lookup "title" = some (.str tiv)) (htil : tiv.length = n)
    (hsx : df.lookup "sex" = some (.str sxv)) (hsxl : sxv.length = n)
    (hra : df.lookup "Last_performance_rating" = some (.str rav)) (hral : rav.length = n)
    (hw1 : s.mean.length = mc.length) (hw2 : s.scale.length = mc.length)
    (i : Nat) (hi : i < n) :
    ∃ mat, (preprocess_input df mc s).2 = some mat ∧ mat.length = n ∧
      mat.get? i = s.transformRow
        (mc.map (valAt (get_dummies
          (procOf nops salaries ages tenures dnv tiv sxv rav)) i)) := by
  subst hlen
  have hga : df.getNum "age" = some ages := by simp [Frame.getNum, ha]
  have hgt : df.getNum "tenure" = some tenures := by simp [Frame.getNum, ht]
  have hgs : df.getNum "salary" = some salaries := by simp [Frame.getNum, hsa]
  set B := ((df.setCol "age_group" (cutCol age_bins age_labels ages)).setCol
      "tenure_group" (cutCol tenure_bins tenure_labels tenures)).setCol
      "salary_bin" (cutCol salary_bins salary_labels salaries) with hB
  have lb := lookup_binned df (cutCol age_bins age_labels ages)
    (cutCol tenure_bins tenure_labels tenures)
    (cutCol salary_bins salary_labels salaries)
  have LN : B.lookup "no_of_projects" = some (.num nops) := by rw [hB, lb]; simp [hnop]
  have LSB : B.lookup "salary_bin" =
      some (cutCol salary_bins salary_labels salaries) := by rw [hB, lb]; simp
  have LAG : B.lookup "age_group" =
      some (cutCol age_bins age_labels ages) := by rw [hB, lb]; simp
  have LTG : B.lookup "tenure_group" =
      some (cutCol tenure_bins tenure_labels tenures) := by rw [hB, lb]; simp
  have LD : B.lookup "dept_name" = some (.str dnv) := by rw [hB, lb]; simp [hdn]
  have LT : B.lookup "title" = some (.str tiv) := by rw [hB, lb]; simp [hti]
  have LS : B.lookup "sex" = some (.str sxv) := by rw [hB, lb]; simp [hsx]
  have LR : B.lookup "Last_performance_rating" = some (.str rav) := by
    rw [hB, lb]; simp [hra]
  have hproc : B.select features =
      some (procOf nops salaries ages tenures dnv tiv sxv rav) :=
    select_features_eq B nops salaries ages tenures dnv tiv sxv rav
      LN LSB LAG LTG LD LT LS LR
  set E := get_dummies (procOf nops salaries ages tenures dnv tiv sxv rav) with hE
  have hrows : ∀ p ∈ procOf nops salaries ages tenures dnv tiv sxv rav,
      p.2.nRows = ages.length := by
    intro p hp
    simp only [procOf, List.mem_cons, List.not_mem_nil, or_false] at hp
    rcases hp with rfl | rfl | rfl | rfl | rfl | rfl | rfl | rfl <;>
      simp [ColVals.nRows, cutCol, hnl, hsl, htl, hdl, htil, hsxl, hral]
  have henc := get_dummies_num _ ages.length hrows
  obtain ⟨al, hal, halmap, _⟩ := alignColumns_spec E mc ages.length
  have hallen : al.length = mc.length := by
    simpa using congrArg List.length halmap
  have hfr : ∀ j, j < ages.length →
      frameRow al j = some (al.map (fun p => valAt E j p.1)) :=
    fun j hj => frameRow_eq j _ al (aligned_cellAt E mc ages.length henc hal j hj)
  obtain ⟨rows, hrowsEq, hrlen, hrget⟩ := frameRowsFrom_spec al ages.length 0
    (fun l hl => by rw [Nat.zero_add, hfr l hl]; rfl)
  have hrowlen : ∀ row ∈ rows, row.length = mc.length := by
    intro row hrow
    obtain ⟨l, hl⟩ := List.mem_iff_get?.mp hrow
    have hl' : l < rows.length := by
      rcases List.get?_eq_some.mp hl with ⟨hh, _⟩
      exact hh
    have hlk : l < ages.length := by omega
    rw [hrget l hlk, Nat.zero_add, hfr l hlk, Option.some_inj] at hl
    rw [← hl]
    simpa using hallen
  obtain ⟨mat, hmat, hmlen, _⟩ := transform_spec s mc.length hw1 hw2 rows hrowlen
  have hout : (preprocess_input df mc s).2 = some mat := by
    rw [preprocess_eq df mc s ages tenures salaries hga hgt hgs, ← hB, hproc,
      Option.some_bind, ← hE, hal, Option.some_bind]
    show (frameRowsFrom al 0 ages.length).bind (fun m => s.transform m) = some mat
    rw [hrowsEq, Option.some_bind, hmat]
  refine ⟨mat, hout, by omega, ?_⟩
  rw [transform_get? s rows mat hmat i, hrget i hi, Nat.zero_add, hfr i hi,
    Option.some_bind]
  have hmap : al.map (fun p => valAt E i p.1) = mc.map (valAt E i) := by
    rw [← halmap, List.map_map]
    rfl
  rw [hmap]

/-- Restricting the batch to record `i` commutes with binning and
encoding when the raw string columns are constant over the batch: the
encoded frame of the single record is the row-`i` restriction of the
batch's encoded frame. -/
lemma encoded_restrict (nops salaries ages tenures : List Int)
    (dn ti sx ra : String) (n i : Nat) (hn : 1 ≤ n)
    (nopi sali ai teni : Int)
    (h1 : nops.get? i = some nopi) (h2 : salaries.get? i = some sali)
    (h3 : ages.get? i = some ai) (h4 : tenures.get? i = some teni) :
    get_dummies (procOf [nopi] [sali] [ai] [teni] [dn] [ti] [sx] [ra]) =
      (get_dummies (procOf nops salaries ages tenures (List.replicate n dn)
        (List.replicate n ti) (List.replicate n sx) (List.replicate n ra))).map
        (fun p => (p.1, restrictAt i p.2)) := by
  have c2 : (salaries.map (cutVal salary_bins salary_labels)).get? i =
      some (cutVal salary_bins salary_labels sali) := by
    rw [List.get?_map, h2]; rfl
  have c3 : (ages.map (cutVal age_bins age_labels)).get? i =
      some (cutVal age_bins age_labels ai) := by
    rw [List.get?_map, h3]; rfl
  have c4 : (tenures.map (cutVal tenure_bins tenure_labels)).get? i =
      some (cutVal tenure_bins tenure_labels teni) := by
    rw [List.get?_map, h4]; rfl
  have h1' : nops[i]? = some nopi := by rw [← List.get?_eq_getElem?]; exact h1
  have hnum : restrictAt i (ColVals.num nops) = ColVals.num [nopi] := by
    simp [restrictAt, List.getD_eq_getElem?_getD, h1']
  simp only [get_dummies, procOf, cutCol, ColVals.isNum, List.filter_cons,
    List.filter_nil, List.flatMap_cons, List.flatMap_nil, eq_self_iff_true,
    if_true, Bool.false_eq_true, if_false, not_true, not_false_iff,
    decide_True, decide_False, List.map_cons, List.map_nil]
  rw [dummyColsFor_str_single "dept_name" dn, dummyColsFor_str_single "title" ti,
    dummyColsFor_str_single "sex" sx,
    dummyColsFor_str_single "Last_performance_rating" ra,
    dummyColsFor_str_replicate "dept_name" dn n hn,
    dummyColsFor_str_replicate "title" ti n hn,
    dummyColsFor_str_replicate "sex" sx n hn,
    dummyColsFor_str_replicate "Last_performance_rating" ra n hn,
    dummyColsFor_cat_restrict "salary_bin" salary_labels _ i _ c2,
    dummyColsFor_cat_restrict "age_group" age_labels _ i _ c3,
    dummyColsFor_cat_restrict "tenure_group" tenure_labels _ i _ c4]
  simp only [List.map_cons, List.map_append, List.map_nil, List.append_nil]
  rw [hnum]

/-- C7 counterexample: on the batch whose two records differ only in
`sex` (`F` then `M`), with canonical column `sex_M`, row 1 of the batch
output is `[1]`, but running the pipeline on record 1 alone yields `[0]`:
with drop-first encoding over batch-dependent categories, a record's
encoded row depends on which other records appear in its batch. -/
theorem C7_counterexample_row_depends_on_batch :
    batchFM.selectRow 1 = some singleM ∧
    (preprocess_input batchFM mcSexM idScaler1).2 = some [[0], [1]] ∧
    (preprocess_input singleM mcSexM idScaler1).2 = some [[0]] ∧
    ¬ (([[0], [1]] : List (List ℚ)).get? 1 = ([[0]] : List (List ℚ)).get? 0) := by
  refine ⟨by decide, ?_, ?_, by simp⟩
  · have hb : (preprocess_input batchFM mcSexM idScaler1).2 =
        idScaler1.transform [[0], [1]] := rfl
    rw [hb]
    norm_num [Scaler.transform, Scaler.transformRow, idScaler1]
  · have hs : (preprocess_input singleM mcSexM idScaler1).2 =
        idScaler1.transform [[0]] := rfl
    rw [hs]
    norm_num [Scaler.transform, Scaler.transformRow, idScaler1]

/-- C7 (amended): row `i` of the batch output equals the single-record
run on record `i` for well-formed, bin-eligible batches whose raw string
categorical columns are constant across the batch (so that the observed
category sets, and hence the dropped reference categories, agree between
the two runs); the counterexample shows the unrestricted claim fails when
a string column varies over the batch. -/
theorem C7_amended_row_consistency_for_constant_string_columns
    (df : Frame) (mc : List String) (s : Scaler) (n : Nat)
    (ages tenures salaries nops : List Int) (dn ti sx ra : String)
    (ha : df.lookup "age" = some (.num ages)) (hlen : ages.length = n)
    (ht : df.lookup "tenure" = some (.num tenures)) (htl : tenures.length = n)
    (hsa : df.lookup "salary" = some (.num salaries)) (hsl : salaries.length = n)
    (hnop : df.lookup "no_of_projects" = some (.num nops)) (hnl : nops.length = n)
    (hdn : df.lookup "dept_name" = some (.str (List.replicate n dn)))
    (hti : df.lookup "title" = some (.str (List.replicate n ti)))
    (hsx : df.lookup "sex" = some (.str (List.replicate n sx)))
    (hra : df.lookup "Last_performance_rating" = some (.str (List.replicate n ra)))
    (hrect : ∀ p ∈ df, p.2.nRows = n)
    (hbina : ∀ a ∈ ages, (cutVal age_bins age_labels a).isSome)
    (hbint : ∀ a ∈ tenures, (cutVal tenure_bins tenure_labels a).isSome)
    (hbins : ∀ a ∈ salaries, (cutVal salary_bins salary_labels a).isSome)
    (hw1 : s.mean.length = mc.length) (hw2 : s.scale.length = mc.length)
    (i : Nat) (hi : i < n) :
    ∃ dfi mat mati,
      df.selectRow i = some dfi ∧
      (preprocess_input df mc s).2 = some mat ∧
      (preprocess_input dfi mc s).2 = some mati ∧
      mat.get? i = mati.get? 0 := by
  have hgets : ∀ (l : List Int), l.length = n → ∃ x, l.get? i = some x := by
    intro l hl
    refine Option.isSome_iff_exists.mp ?_
    rw [Option.isSome_iff_ne_none, Ne, List.get?_eq_none]
    omega
  obtain ⟨ai, hai⟩ := hgets ages hlen
  obtain ⟨teni, hteni⟩ := hgets tenures htl
  obtain ⟨sali, hsali⟩ := hgets salaries hsl
  obtain ⟨nopi, hnopi⟩ := hgets nops hnl
  have conv : ∀ (l : List Int) (x : Int), l.get? i = some x → l[i]? = some x :=
    fun l x h => by rw [← List.get?_eq_getElem?]; exact h
  have hai' := conv _ _ hai
  have hteni' := conv _ _ hteni
  have hsali' := conv _ _ hsali
  have hnopi' := conv _ _ hnopi
  have hrep : ∀ v : String, (List.replicate n v)[i]? = some v := by
    intro v
    rw [List.getElem?_replicate, if_pos hi]
  obtain ⟨dfi, hdfi⟩ := selectRow_isSome df i n hrect hi
  have hlook := selectRow_lookup df i dfi hdfi
  have ha' : dfi.lookup "age" = some (.num [ai]) := by
    rw [hlook, ha]; simp [ColVals.row1, hai']
  have ht' : dfi.lookup "tenure" = some (.num [teni]) := by
    rw [hlook, ht]; simp [ColVals.row1, hteni']
  have hsa' : dfi.lookup "salary" = some (.num [sali]) := by
    rw [hlook, hsa]; simp [ColVals.row1, hsali']
  have hnop' : dfi.lookup "no_of_projects" = some (.num [nopi]) := by
    rw [hlook, hnop]; simp [ColVals.row1, hnopi']
  have hdn' : dfi.lookup "dept_name" = some (.str [dn]) := by
    rw [hlook, hdn]; simp [ColVals.row1, hrep]
  have hti' : dfi.lookup "title" = some (.str [ti]) := by
    rw [hlook, hti]; simp [ColVals.row1, hrep]
  have hsx' : dfi.lookup "sex" = some (.str [sx]) := by
    rw [hlook, hsx]; simp [ColVals.row1, hrep]
  have hra' : dfi.lookup "Last_performance_rating" = some (.str [ra]) := by
    rw [hlook, hra]; simp [ColVals.row1, hrep]
  obtain ⟨mat, hmat, hmatlen, hmrow⟩ := preprocess_output_row df mc s n
    ages tenures salaries nops (List.replicate n dn) (List.replicate n ti)
    (List.replicate n sx) (List.replicate n ra)
    ha hlen ht htl hsa hsl hnop hnl hdn (by simp) hti (by simp) hsx (by simp)
    hra (by simp) hw1 hw2 i hi
  obtain ⟨mati, hmati, hmatilen, hmirow⟩ := preprocess_output_row dfi mc s 1
    [ai] [teni] [sali] [nopi] [dn] [ti] [sx] [ra]
    ha' rfl ht' rfl hsa' rfl hnop' rfl hdn' rfl hti' rfl hsx' rfl hra' rfl
    hw1 hw2 0 (by omega)
  refine ⟨dfi, mat, mati, hdfi, hmat, hmati, ?_⟩
  rw [hmrow, hmirow]
  have hn1 : 1 ≤ n := by omega
  have hencr := encoded_restrict nops salaries ages tenures dn ti sx ra n i hn1
    nopi sali ai teni hnopi hsali hai hteni
  have hval : valAt (get_dummies (procOf [nopi] [sali] [ai] [teni] [dn] [ti] [sx] [ra])) 0 =
      valAt (get_dummies (procOf nops salaries ages tenures (List.replicate n dn)
        (List.replicate n ti) (List.replicate n sx) (List.replicate n ra))) i := by
    funext c
    rw [hencr]
    exact valAt_restrict _ i c
  rw [hval]

/-- Witness for C7 (amended) on a concrete two-record batch with constant
string columns: row 1 of the batch output equals the single-record run on
record 1. -/
theorem C7_amended_row_consistency_witness :
    ∃ dfi mat mati,
      batchConst.selectRow 1 = some dfi ∧
      (preprocess_input batchConst mcSexM idScaler1).2 = some mat ∧
      (preprocess_input dfi mcSexM idScaler1).2 = some mati ∧
      mat.get? 1 = mati.get? 0 :=
  C7_amended_row_consistency_for_constant_string_columns batchConst mcSexM idScaler1 2
    [30, 40] [5, 6] [50000, 60000] [3, 4] "Sales" "Analyst" "M" "B"
    rfl rfl rfl rfl rfl rfl rfl rfl rfl rfl rfl rfl
    (by decide) (by decide) (by decide) (by decide) rfl rfl 1 (by decide)

/-- C9 counterexample: in manual-form mode with a classifier predicting 0
(class-1 probability 1/4), the displayed probability is 3/4 — the Stay
probability, not the classifier's Leave-class probability — so the claim
as stated (Leave-class probability reported in both modes) is false. -/
theorem C9_counterexample_manual_mode_probability :
    main_app_manual 30 5 50000 3 "Sales" "Analyst" "M" "B" [] emptyScaler
      constStayClassifier = some ⟨false, 3/4⟩ ∧
    constStayClassifier.proba1 [] = 1/4 ∧ ((3 : ℚ)/4 ≠ 1/4) := by
  refine ⟨?_, rfl, by norm_num⟩
  have h : main_app_manual 30 5 50000 3 "Sales" "Analyst" "M" "B" [] emptyScaler
      constStayClassifier = some ⟨false, 1 - constStayClassifier.proba1 []⟩ := rfl
  rw [h]
  norm_num [constStayClassifier]

/-- C9 (amended): the label is `Leave` exactly when `predict` returns 1,
in both modes; the batch `Probability` column is the class-1 probability.
In manual mode the displayed probability is the Leave probability when
predicting leave and the complementary Stay probability `1 - p` when
predicting stay; in either case it lies in `[0, 1]` whenever the
classifier's probabilities do. -/
theorem C9_amended_labels_and_probabilities (mc : List String) (s : Scaler)
    (m : Classifier) (hp : ∀ r, 0 ≤ m.proba1 r ∧ m.proba1 r ≤ 1) :
    (∀ (df : Frame) (mat : List (List ℚ)),
      required_cols.all (fun c => (df.lookup c).isSome) = true →
      (preprocess_input df mc s).2 = some mat →
      (main_app_upload df mc s m).2 =
        UploadOutcome.success
          (mat.map (fun r => if m.predict r = 1 then "Leave" else "Stay"))
          (mat.map m.proba1)
          (mat.map (fun r => if m.predict r = 1 then "Leave" else "Stay")).length
          ((mat.map (fun r => if m.predict r = 1 then "Leave" else "Stay")).count "Stay")
          ((mat.map (fun r => if m.predict r = 1 then "Leave" else "Stay")).count "Leave") ∧
      ∀ q ∈ mat.map m.proba1, 0 ≤ q ∧ q ≤ 1) ∧
    (∀ (age tenure salary nop : Int) (dn ti sx ra : String)
        (mat : List (List ℚ)) (row : List ℚ),
      (preprocess_input (manual_input_df age tenure salary nop dn ti sx ra) mc s).2 =
        some mat →
      mat.head? = some row →
      main_app_manual age tenure salary nop dn ti sx ra mc s m =
        some ⟨decide (m.predict row = 1),
          if m.predict row = 1 then m.proba1 row else 1 - m.proba1 row⟩ ∧
      0 ≤ (if m.predict row = 1 then m.proba1 row else 1 - m.proba1 row) ∧
      (if m.predict row = 1 then m.proba1 row else 1 - m.proba1 row) ≤ 1) := by
  constructor
  · intro df mat hreq hmat
    rcases hpp : preprocess_input df mc s with ⟨df', res⟩
    rw [hpp] at hmat
    simp only at hmat
    subst hmat
    constructor
    · simp only [main_app_upload, hreq, if_true, hpp]
      simp only [List.map_map]
      rfl
    · intro q hq
      obtain ⟨r, _, rfl⟩ := List.mem_map.mp hq
      exact hp r
  · intro age tenure salary nop dn ti sx ra mat row hmat hrow
    refine ⟨?_, ?_⟩
    · simp only [main_app_manual, hmat, hrow]
      by_cases h : m.predict row = 1 <;> simp [h]
    · by_cases h : m.predict row = 1
      · simpa [h] using hp row
      · have := hp row
        rw [if_neg h]
        constructor <;> linarith [this.1, this.2]

/-- Witness for C9 (amended), manual mode on the concrete single record
with the constant stay-classifier: the displayed result is exactly the
complementary probability form. -/
theorem C9_amended_labels_and_probabilities_witness :
    main_app_manual 30 5 50000 3 "Sales" "Analyst" "M" "B" [] emptyScaler
        constStayClassifier =
      some ⟨decide (constStayClassifier.predict [] = 1),
        if constStayClassifier.predict [] = 1 then constStayClassifier.proba1 []
        else 1 - constStayClassifier.proba1 []⟩ ∧
    0 ≤ (if constStayClassifier.predict [] = 1 then constStayClassifier.proba1 []
        else 1 - constStayClassifier.proba1 []) ∧
    (if constStayClassifier.predict [] = 1 then constStayClassifier.proba1 []
        else 1 - constStayClassifier.proba1 []) ≤ 1 :=
  (C9_amended_labels_and_probabilities [] emptyScaler constStayClassifier
      (fun r => ⟨by norm_num [constStayClassifier], by norm_num [constStayClassifier]⟩)).2
    30 5 50000 3 "Sales" "Analyst" "M" "B" [[]] [] rfl rfl

end EmployeeAnalytics
